import Mathlib

/-!
Verification of the redis_proxy gateway (src/src/bin/redis_proxy.rs).

The development shallow-embeds the gateway's pure logic:
* `Json` models `serde_json::Value` (numbers restricted to integers, which
  covers every value the claims exercise); `Json.render` models
  `Value::to_string()`, serde_json's compact serialization.
* The key grammar is embedded as a `RegularExpression Char` (Mathlib's
  regular-expression theory) built exactly as `generate_key_pattern` builds
  its pattern string; `is_valid_key` is anchored full-string matching, which
  is what `Regex::is_match` on a `^...$`-anchored pattern computes.  The
  `\w` / `[\w\d]` classes are modelled over the ASCII word alphabet.
* `validate_json_schema` models the function of the same name, including the
  per-call `JSONSchema::compile`; the behaviour of the external `jsonschema`
  crate is modelled for the subset of JSON Schema that the two registered
  schemas use (type/object, properties with primitive types, required).
* `handle_request` models the function of the same name; the redis backend
  is an oracle `BackendOp → Except String Unit`, and the list component of
  the result records every backend call attempted, in order.
-/

open RegularExpression

/-- Model of `serde_json::Value`.  Numbers are modelled as integers; object
fields are an association list (serde_json keeps object keys sorted, which a
list models by convention — no claim depends on key order). -/
inductive Json where
  | null : Json
  | bool : Bool → Json
  | num : Int → Json
  | str : String → Json
  | arr : List Json → Json
  | obj : List (String × Json) → Json

/-- serde_json string escaping for one character (`\"`, `\\`, control
characters via their short escapes or `\u00..`). -/
def escapeChar (c : Char) : String :=
  if c = '"' then "\\\""
  else if c = '\\' then "\\\\"
  else if c = (Char.ofNat 8) then "\\b"
  else if c = (Char.ofNat 9) then "\\t"
  else if c = (Char.ofNat 10) then "\\n"
  else if c = (Char.ofNat 12) then "\\f"
  else if c = (Char.ofNat 13) then "\\r"
  else if c.toNat < 32 then
    "\\u00" ++ String.mk (Nat.toDigits 16 c.toNat)
  else String.singleton c

/-- serde_json rendering of a string literal: quotes around the escaped
character sequence. -/
def renderStr (s : String) : String :=
  "\"" ++ String.join (s.data.map escapeChar) ++ "\""

mutual
/-- Model of `Value::to_string()`: serde_json's compact serialization. -/
def Json.render : Json → String
  | .null => "null"
  | .bool true => "true"
  | .bool false => "false"
  | .num n => toString n
  | .str s => renderStr s
  | .arr xs => "[" ++ Json.renderList xs ++ "]"
  | .obj kvs => "\x7b" ++ Json.renderPairs kvs ++ "\x7d"

/-- Comma-separated rendering of array elements. -/
def Json.renderList : List Json → String
  | [] => ""
  | [x] => x.render
  | x :: y :: xs => x.render ++ "," ++ Json.renderList (y :: xs)

/-- Comma-separated rendering of object fields. -/
def Json.renderPairs : List (String × Json) → String
  | [] => ""
  | [(k, v)] => renderStr k ++ ":" ++ v.render
  | (k, v) :: p :: xs => renderStr k ++ ":" ++ v.render ++ "," ++ Json.renderPairs (p :: xs)
end

/-- Model of `VALID_PRODUCERS` (redis_proxy.rs line 34). -/
def VALID_PRODUCERS : List String := ["DiskUsage", "ModemWatcher", "Psmon", "SerialPort"]

/-- Model of `VALID_OBJECTS` (redis_proxy.rs line 35). -/
def VALID_OBJECTS : List String := ["object1", "object2"]

/-- The ASCII word alphabet: the model of the regex class `\w`
(alphanumerics and underscore). -/
def wordChars : List Char :=
  "abcdefghijklmnopqrstuvwxyzABCDEFGHIJKLMNOPQRSTUVWXYZ0123456789_".data

/-- The model of the regex class `[\w\d]` used for the instance-id group:
the union of `\w` and the digits (which `\w` already contains). -/
def idChars : List Char := wordChars ++ "0123456789".data

/-- A character-class regex: the alternation of the given characters,
modelling a regex character class such as `\w`. -/
def charAlt : List Char → RegularExpression Char
  | [] => 0
  | c :: cs => char c + charAlt cs

/-- A literal-string regex: the concatenation of the characters of `l`. -/
def strRe : List Char → RegularExpression Char
  | [] => 1
  | c :: cs => char c * strRe cs

/-- The regex alternation `s₁|s₂|...` of literal strings, as produced by
`VALID_PRODUCERS.join("|")` inside the pattern. -/
def altStrings : List String → RegularExpression Char
  | [] => 0
  | s :: rest => strRe s.data + altStrings rest

/-- The regex postfix operator `+` (one or more repetitions). -/
def plusRe (r : RegularExpression Char) : RegularExpression Char := r * r.star

/-- The regex postfix operator `?` (zero or one occurrence). -/
def optRe (r : RegularExpression Char) : RegularExpression Char := r + 1

/-- Model of `generate_key_pattern` (redis_proxy.rs lines 62-70): the pattern
`^cs:(producers):(objects)(?::([\w\d]+))?(?::(\w+))?$`.  The `^`/`$`
anchors are represented by the matcher being a full-string matcher. -/
def generate_key_pattern : RegularExpression Char :=
  strRe "cs:".data *
    (altStrings VALID_PRODUCERS *
      (char ':' *
        (altStrings VALID_OBJECTS *
          (optRe (char ':' * plusRe (charAlt idChars)) *
            optRe (char ':' * plusRe (charAlt wordChars))))))

/-- Model of `KEY_PATTERN` (redis_proxy.rs line 36). -/
def KEY_PATTERN : RegularExpression Char := generate_key_pattern

/-- Model of `is_valid_key` (redis_proxy.rs lines 73-75): `KEY_PATTERN.is_match(key)`;
the pattern is anchored on both sides, so this is full-string matching. -/
def is_valid_key (key : String) : Bool := KEY_PATTERN.rmatch key.data

/-- Model of `str::splitn(n, ':')` from the Rust standard library: split into at most
`n` pieces at `:` separators, the last piece keeping the rest unsplit. -/
def splitnColon : Nat → List Char → List (List Char)
  | 0, _ => []
  | 1, s => [s]
  | n + 2, s =>
    let pre := s.takeWhile (fun c => c ≠ ':')
    if pre.length = s.length then [s]
    else pre :: splitnColon (n + 1) (s.drop (pre.length + 1))

/-- Model of `Vec::join(sep)` from the Rust standard library. -/
def joinSep (sep : String) : List String → String
  | [] => ""
  | [x] => x
  | x :: y :: xs => x ++ sep ++ joinSep sep (y :: xs)

/-- The base-key extraction of `validate_json_schema` (redis_proxy.rs line
79): `key.splitn(4, ':').take(3).collect().join(":")`. -/
def base_key (key : String) : String :=
  joinSep ":" (((splitnColon 4 key.data).take 3).map (fun l => String.mk l))

/-- The schema registered for `cs:DiskUsage:object1` (redis_proxy.rs lines
39-47). -/
def diskUsageSchema : Json :=
  .obj [("type", .str "object"),
        ("properties", .obj [("version", .obj [("type", .str "number")]),
                             ("disk", .obj [("type", .str "string")]),
                             ("usage", .obj [("type", .str "number")])]),
        ("required", .arr [.str "version", .str "disk", .str "usage"])]

/-- The schema registered for `cs:ModemWatcher:object2` (redis_proxy.rs
lines 48-56). -/
def modemWatcherSchema : Json :=
  .obj [("type", .str "object"),
        ("properties", .obj [("version", .obj [("type", .str "number")]),
                             ("status", .obj [("type", .str "string")]),
                             ("signal_strength", .obj [("type", .str "integer")])]),
        ("required", .arr [.str "version", .str "status", .str "signal_strength"])]

/-- Model of `SCHEMAS` (redis_proxy.rs lines 37-58). -/
def SCHEMAS : List (String × Json) :=
  [("cs:DiskUsage:object1", diskUsageSchema), ("cs:ModemWatcher:object2", modemWatcherSchema)]

/-- A compiled schema, as produced by `jsonschema::JSONSchema::compile` for
the object schemas of `SCHEMAS`: the typed properties and the required
field names. -/
structure CompiledSchema where
  properties : List (String × String)
  required : List String
deriving DecidableEq

/-- Primitive-type check of the external jsonschema crate, for the three
type names the registered schemas use ("number" and "integer" both accept
the integer-modelled numbers). -/
def typeMatches (ty : String) (v : Json) : Bool :=
  match ty, v with
  | "number", .num _ => true
  | "integer", .num _ => true
  | "string", .str _ => true
  | _, _ => false

/-- Parses the `properties` object of a schema: each property must be an
object with a supported `"type"` string.  Modelled from the external
jsonschema crate; an unsupported shape is a compilation error. -/
def parseProps : List (String × Json) → Except String (List (String × String))
  | [] => .ok []
  | (f, spec) :: rest =>
    match spec with
    | .obj sf =>
      match sf.lookup "type" with
      | some (.str ty) =>
        if ty = "number" ∨ ty = "integer" ∨ ty = "string" then
          match parseProps rest with
          | .ok rest2 => .ok ((f, ty) :: rest2)
          | .error e => .error e
        else .error "invalid schema definition"
      | _ => .error "invalid schema definition"
    | _ => .error "invalid schema definition"

/-- Parses the `required` array of a schema: each entry must be a string. -/
def parseReqs : List Json → Except String (List String)
  | [] => .ok []
  | .str f :: rest =>
    match parseReqs rest with
    | .ok rest2 => .ok (f :: rest2)
    | .error e => .error e
  | _ :: _ => .error "invalid schema definition"

/-- Model of `jsonschema::JSONSchema::compile`, modelled from the external crate for
the shape of schema used by `SCHEMAS` (an object schema with typed
properties and a required list); any other shape fails to compile. -/
def compileSchema (s : Json) : Except String CompiledSchema :=
  match s with
  | .obj fields =>
    match fields.lookup "type", fields.lookup "properties", fields.lookup "required" with
    | some (.str "object"), some (.obj props), some (.arr reqs) =>
      match parseProps props, parseReqs reqs with
      | .ok ps, .ok rs => .ok ⟨ps, rs⟩
      | .error e, _ => .error e
      | _, .error e => .error e
    | _, _, _ => .error "invalid schema definition"
  | _ => .error "invalid schema definition"

/-- One required-field violation message of the jsonschema crate. -/
def requiredMsg (f : String) : String := "\"" ++ f ++ "\" is a required property"

/-- One type-violation message of the jsonschema crate: it shows the
offending value (not the field name) and the expected type. -/
def typeMsg (v : Json) (ty : String) : String :=
  v.render ++ " is not of type \"" ++ ty ++ "\""

/-- The required-field violations of an object instance. -/
def requiredErrors (cs : CompiledSchema) (fields : List (String × Json)) : List String :=
  (cs.required.filter (fun f => (fields.lookup f).isNone)).map requiredMsg

/-- The property-type violations of an object instance. -/
def typeErrors (cs : CompiledSchema) (fields : List (String × Json)) : List String :=
  cs.properties.filterMap (fun p =>
    match fields.lookup p.1 with
    | some w => if typeMatches p.2 w then none else some (typeMsg w p.2)
    | none => none)

/-- Model of `JSONSchema::validate`, modelled from the external jsonschema crate for
the compiled object schemas: a non-object instance is one top-level type
violation; an object instance collects every required-field violation and
every property-type violation. -/
def validateValue (cs : CompiledSchema) (v : Json) : List String :=
  match v with
  | .obj fields => requiredErrors cs fields ++ typeErrors cs fields
  | _ => [typeMsg v "object"]

/-- Model of `validate_json_schema`, generalized over the schema table (the source
fixes the table to `SCHEMAS`).  Mirrors redis_proxy.rs lines 78-89: derive
the base key, look it up, compile the schema (a compilation error is
returned as the error), validate, and join all violations with ", ". -/
def validate_json_schema_with (table : List (String × Json)) (key : String) (value : Json) :
    Except String Unit :=
  match table.lookup (base_key key) with
  | some schema =>
    match compileSchema schema with
    | .error e => .error e
    | .ok cs =>
      match validateValue cs value with
      | [] => .ok ()
      | e :: rest => .error (joinSep ", " (e :: rest))
  | none => .ok ()

/-- Model of `validate_json_schema` (redis_proxy.rs lines 78-89). -/
def validate_json_schema (key : String) (value : Json) : Except String Unit :=
  validate_json_schema_with SCHEMAS key value

/-- Model of `Request` (redis_proxy.rs lines 18-23). -/
structure Request where
  action : String
  key : String
  value : Option Json

/-- Model of `Response` (redis_proxy.rs lines 26-30). -/
structure Response where
  status : String
  message : String
deriving DecidableEq

/-- One backend (redis) call, with its arguments as the gateway sends them. -/
inductive BackendOp where
  | set : String → String → BackendOp
  | del : String → BackendOp
  | sadd : String → String → BackendOp
  | srem : String → String → BackendOp
  | publish : String → String → BackendOp
deriving DecidableEq

/-- The backend oracle: the outcome redis would return for each call; an
error carries the diagnostic text of `RedisError::to_string()`. -/
def Backend : Type := BackendOp → Except String Unit

/-- The mutation-then-publish sequencing of each action arm (the
`.and_then` chains of redis_proxy.rs lines 112-129): attempt `op1`; only if
it succeeded attempt `op2`; the returned list records the attempted calls
in order, and the response is built as in lines 137-146. -/
def runOps (backend : Backend) (op1 op2 : BackendOp) : Response × List BackendOp :=
  match backend op1 with
  | .error e => (⟨"error", e⟩, [op1])
  | .ok _ =>
    match backend op2 with
    | .error e => (⟨"error", e⟩, [op1, op2])
    | .ok _ => (⟨"ok", "Action completed successfully"⟩, [op1, op2])

/-- The serialized value of a mutating request:
`req.value.unwrap_or(Value::Null).to_string()`. -/
def valueText (req : Request) : String := (req.value.getD Json.null).render

/-- The action dispatch of `handle_request` (redis_proxy.rs lines 112-134). -/
def dispatch (backend : Backend) (req : Request) : Response × List BackendOp :=
  match req.action with
  | "set" => runOps backend (.set req.key (valueText req))
      (.publish req.key ("set: " ++ valueText req))
  | "del" => runOps backend (.del req.key) (.publish req.key "del")
  | "sadd" => runOps backend (.sadd req.key (valueText req))
      (.publish req.key ("sadd: " ++ valueText req))
  | "srem" => runOps backend (.srem req.key (valueText req))
      (.publish req.key ("srem: " ++ valueText req))
  | _ => (⟨"error", "Invalid action"⟩, [])

/-- Model of `handle_request` (redis_proxy.rs lines 92-154).  The input is the result
of `serde_json::from_str::<Request>` on the wire text (`none` when decoding
failed); the second component lists every backend call attempted. -/
def handle_request (backend : Backend) (data : Option Request) : Response × List BackendOp :=
  match data with
  | none => (⟨"error", "Invalid request format"⟩, [])
  | some req =>
    if is_valid_key req.key then
      match req.value with
      | some v =>
        match validate_json_schema req.key v with
        | .error e => (⟨"error", e⟩, [])
        | .ok _ => dispatch backend req
      | none => dispatch backend req
    else (⟨"error", "Invalid key format"⟩, [])

/-- The per-connection loop of `handle_client` (redis_proxy.rs lines
161-180): each complete newline-delimited message is decoded and handled
independently, and a response is written for each. -/
def handle_client (backend : Backend) (msgs : List (Option Request)) :
    List (Response × List BackendOp) :=
  msgs.map (handle_request backend)

/-- How many times one call of `handle_request` runs
`jsonschema::JSONSchema::compile`: the compile sits inside
`validate_json_schema` (line 81), which runs iff the key is valid and a
value is present, and compiles iff the base key has a registered schema. -/
def request_compiles (data : Option Request) : Nat :=
  match data with
  | none => 0
  | some req =>
    if is_valid_key req.key then
      match req.value with
      | some _ => if (SCHEMAS.lookup (base_key req.key)).isSome then 1 else 0
      | none => 0
    else 0

/-- Total schema compilations performed while serving a message list. -/
def client_compiles (msgs : List (Option Request)) : Nat :=
  (msgs.map request_compiles).sum

/-- The mutating backend call of a request, by action (lines 112-129). -/
def mutationOf (req : Request) : Option BackendOp :=
  match req.action with
  | "set" => some (.set req.key (valueText req))
  | "del" => some (.del req.key)
  | "sadd" => some (.sadd req.key (valueText req))
  | "srem" => some (.srem req.key (valueText req))
  | _ => none

/-- The notification publish of a request, by action (lines 112-129). -/
def publishOf (req : Request) : Option BackendOp :=
  match req.action with
  | "set" => some (.publish req.key ("set: " ++ valueText req))
  | "del" => some (.publish req.key "del")
  | "sadd" => some (.publish req.key ("sadd: " ++ valueText req))
  | "srem" => some (.publish req.key ("srem: " ++ valueText req))
  | _ => none

/-- The language of one optional `(?::(cls+))?` tail group of the key
pattern: empty, or a colon followed by a nonempty token over `cls`. -/
def TailTok (cls : List Char) (t : List Char) : Prop :=
  t = [] ∨ ∃ w, w ≠ [] ∧ (∀ c ∈ w, c ∈ cls) ∧ t = ':' :: w

/-- A nonempty token over the word alphabet (alphanumerics/underscore). -/
def isWordTok (s : String) : Prop := s ≠ "" ∧ ∀ c ∈ s.data, c ∈ wordChars

/-- The specification's key grammar, stated on strings exactly as the
specification words it: literal `cs:`, an allow-listed producer, `:`, an
allow-listed object, then optionally `:` and an instance-id token, then
optionally `:` and a function token, and nothing else. -/
def spec_valid_key (k : String) : Prop :=
  ∃ p ∈ VALID_PRODUCERS, ∃ o ∈ VALID_OBJECTS, ∃ ti tf : String,
    k = "cs:" ++ p ++ ":" ++ o ++ ti ++ tf ∧
    (ti = "" ∨ ∃ w, isWordTok w ∧ ti = ":" ++ w) ∧
    (tf = "" ∨ ∃ w, isWordTok w ∧ tf = ":" ++ w)

/-- The always-succeeding backend oracle, used by concrete witnesses. -/
def okBackend : Backend := fun _ => Except.ok ()

/-- A set request used to drive the compilation-count counterexample. -/
def sampleSetReq : Request :=
  ⟨"set", "cs:DiskUsage:object1",
    some (.obj [("version", .num 1), ("disk", .str "sda"), ("usage", .num 42)])⟩

/-- A Boolean needle-at-head check: the first argument is a leading piece
of the second. -/
def leadsWith : List Char → List Char → Bool
  | [], _ => true
  | _ :: _, [] => false
  | c :: cs, d :: ds => c == d && leadsWith cs ds

/-- Substring occurrence of the needle anywhere in the haystack. -/
def containsSub (need : List Char) : List Char → Bool
  | [] => leadsWith need []
  | c :: cs => leadsWith need (c :: cs) || containsSub need cs

/-- Predicate `mentions msg f`: the field name `f` occurs somewhere in `msg`. -/
def mentions (msg f : String) : Bool := containsSub f.data msg.data

/-- Predicate `violAgainst cs v f`: the required field `f` of the compiled schema is
violated by the instance `v` — `v` is not an object containing `f`, or it
contains `f` with a value of the wrong declared primitive type. -/
def violAgainst (cs : CompiledSchema) (v : Json) (f : String) : Bool :=
  decide (f ∈ cs.required) &&
    (match v with
     | .obj fields =>
       match fields.lookup f with
       | none => true
       | some w =>
         match cs.properties.lookup f with
         | some ty => ! typeMatches ty w
         | none => false
     | _ => true)

/-- The compiled form of `diskUsageSchema`. -/
def diskUsageCompiled : CompiledSchema :=
  ⟨[("version", "number"), ("disk", "string"), ("usage", "number")],
   ["version", "disk", "usage"]⟩

/-- The compiled form of `modemWatcherSchema`. -/
def modemWatcherCompiled : CompiledSchema :=
  ⟨[("version", "number"), ("status", "string"), ("signal_strength", "integer")],
   ["version", "status", "signal_strength"]⟩

/-! ### Language lemmas for the embedded regex combinators -/

theorem charAlt_rmatch {l x : List Char} : (charAlt l).rmatch x ↔ ∃ c ∈ l, x = [c] := by
  induction l with
  | nil =>
    show (0 : RegularExpression Char).rmatch x ↔ _
    simp [zero_rmatch]
  | cons c cs ih =>
    show (char c + charAlt cs).rmatch x ↔ _
    rw [add_rmatch_iff, char_rmatch_iff, ih]
    constructor
    · rintro (rfl | ⟨d, hd, rfl⟩)
      · exact ⟨c, by simp, rfl⟩
      · exact ⟨d, by simp [hd], rfl⟩
    · rintro ⟨d, hd, rfl⟩
      rcases List.mem_cons.mp hd with rfl | hd2
      · exact Or.inl rfl
      · exact Or.inr ⟨d, hd2, rfl⟩

theorem strRe_rmatch {l x : List Char} : (strRe l).rmatch x ↔ x = l := by
  induction l generalizing x with
  | nil =>
    show (1 : RegularExpression Char).rmatch x ↔ _
    rw [one_rmatch_iff]
  | cons c cs ih =>
    show (char c * strRe cs).rmatch x ↔ _
    rw [mul_rmatch_iff]
    constructor
    · rintro ⟨t, u, rfl, ht, hu⟩
      rw [char_rmatch_iff] at ht
      rw [ih] at hu
      rw [ht, hu]
      rfl
    · rintro rfl
      exact ⟨[c], cs, rfl, char_rmatch_iff c [c] |>.mpr rfl, ih.mpr rfl⟩

theorem altStrings_rmatch {L : List String} {x : List Char} :
    (altStrings L).rmatch x ↔ ∃ s ∈ L, x = s.data := by
  induction L with
  | nil =>
    show (0 : RegularExpression Char).rmatch x ↔ _
    simp [zero_rmatch]
  | cons s rest ih =>
    show (strRe s.data + altStrings rest).rmatch x ↔ _
    rw [add_rmatch_iff, strRe_rmatch, ih]
    constructor
    · rintro (rfl | ⟨t, ht, rfl⟩)
      · exact ⟨s, by simp, rfl⟩
      · exact ⟨t, by simp [ht], rfl⟩
    · rintro ⟨t, ht, rfl⟩
      rcases List.mem_cons.mp ht with rfl | ht2
      · exact Or.inl rfl
      · exact Or.inr ⟨t, ht2, rfl⟩

theorem starClass_rmatch {l x : List Char} :
    ((charAlt l).star).rmatch x ↔ ∀ c ∈ x, c ∈ l := by
  rw [star_rmatch_iff]
  constructor
  · rintro ⟨S, rfl, hS⟩ c hc
    rw [List.mem_flatten] at hc
    obtain ⟨t, htS, hct⟩ := hc
    obtain ⟨-, ht⟩ := hS t htS
    rw [charAlt_rmatch] at ht
    obtain ⟨d, hd, rfl⟩ := ht
    simp only [List.mem_singleton] at hct
    subst hct; exact hd
  · intro h
    have hflat : ∀ y : List Char, (y.map (fun c => [c])).flatten = y := by
      intro y
      induction y with
      | nil => rfl
      | cons c rest ih => simp [ih]
    refine ⟨x.map (fun c => [c]), (hflat x).symm, ?_⟩
    intro t ht
    simp only [List.mem_map] at ht
    obtain ⟨c, hcx, rfl⟩ := ht
    exact ⟨by simp, charAlt_rmatch.mpr ⟨c, h c hcx, rfl⟩⟩

theorem plusClass_rmatch {l x : List Char} :
    (plusRe (charAlt l)).rmatch x ↔ x ≠ [] ∧ ∀ c ∈ x, c ∈ l := by
  rw [plusRe, mul_rmatch_iff]
  constructor
  · rintro ⟨t, u, rfl, ht, hu⟩
    rw [charAlt_rmatch] at ht
    obtain ⟨c, hcl, rfl⟩ := ht
    rw [starClass_rmatch] at hu
    refine ⟨by simp, ?_⟩
    intro d hd
    rcases List.mem_cons.mp hd with rfl | hdu
    · exact hcl
    · exact hu d hdu
  · rintro ⟨hne, h⟩
    cases x with
    | nil => exact absurd rfl hne
    | cons c rest =>
      refine ⟨[c], rest, rfl, charAlt_rmatch.mpr ⟨c, h c (by simp), rfl⟩, ?_⟩
      rw [starClass_rmatch]
      exact fun d hd => h d (List.mem_cons_of_mem c hd)

theorem optRe_rmatch {r : RegularExpression Char} {x : List Char} :
    (optRe r).rmatch x ↔ r.rmatch x ∨ x = [] := by
  rw [optRe, add_rmatch_iff, one_rmatch_iff]

theorem tail_rmatch {cls x : List Char} :
    (optRe (char ':' * plusRe (charAlt cls))).rmatch x ↔ TailTok cls x := by
  rw [optRe_rmatch, mul_rmatch_iff, TailTok]
  constructor
  · rintro (⟨t, u, rfl, ht, hu⟩ | rfl)
    · rw [char_rmatch_iff] at ht
      subst ht
      rw [plusClass_rmatch] at hu
      exact Or.inr ⟨u, hu.1, hu.2, rfl⟩
    · exact Or.inl rfl
  · rintro (rfl | ⟨w, hne, hw, rfl⟩)
    · exact Or.inr rfl
    · exact Or.inl ⟨[':'], w, rfl, char_rmatch_iff ':' [':'] |>.mpr rfl,
        plusClass_rmatch.mpr ⟨hne, hw⟩⟩

theorem mem_idChars_iff {c : Char} : c ∈ idChars ↔ c ∈ wordChars := by
  have h1 : ∀ d ∈ idChars, d ∈ wordChars := by decide
  have h2 : ∀ d ∈ wordChars, d ∈ idChars := by decide
  exact ⟨fun h => h1 c h, fun h => h2 c h⟩

theorem tailTok_id_iff {t : List Char} : TailTok idChars t ↔ TailTok wordChars t := by
  simp only [TailTok, mem_idChars_iff]

/-- The language of the full key pattern, decomposed segment by segment. -/
theorem key_pattern_rmatch {x : List Char} :
    KEY_PATTERN.rmatch x ↔
      ∃ p ∈ VALID_PRODUCERS, ∃ o ∈ VALID_OBJECTS, ∃ ti tf : List Char,
        x = "cs:".data ++ (p.data ++ ([':'] ++ (o.data ++ (ti ++ tf)))) ∧
        TailTok wordChars ti ∧ TailTok wordChars tf := by
  rw [KEY_PATTERN, generate_key_pattern]
  constructor
  · intro h
    rw [mul_rmatch_iff] at h
    obtain ⟨t1, u1, rfl, h1, h⟩ := h
    rw [strRe_rmatch] at h1
    subst h1
    rw [mul_rmatch_iff] at h
    obtain ⟨t2, u2, rfl, h2, h⟩ := h
    rw [altStrings_rmatch] at h2
    obtain ⟨p, hp, rfl⟩ := h2
    rw [mul_rmatch_iff] at h
    obtain ⟨t3, u3, rfl, h3, h⟩ := h
    rw [char_rmatch_iff] at h3
    subst h3
    rw [mul_rmatch_iff] at h
    obtain ⟨t4, u4, rfl, h4, h⟩ := h
    rw [altStrings_rmatch] at h4
    obtain ⟨o, ho, rfl⟩ := h4
    rw [mul_rmatch_iff] at h
    obtain ⟨ti, tf, rfl, hti, htf⟩ := h
    rw [tail_rmatch] at hti htf
    exact ⟨p, hp, o, ho, ti, tf, rfl, tailTok_id_iff.mp hti, htf⟩
  · rintro ⟨p, hp, o, ho, ti, tf, rfl, hti, htf⟩
    rw [mul_rmatch_iff]
    refine ⟨_, _, rfl, strRe_rmatch.mpr rfl, ?_⟩
    rw [mul_rmatch_iff]
    refine ⟨_, _, rfl, altStrings_rmatch.mpr ⟨p, hp, rfl⟩, ?_⟩
    rw [mul_rmatch_iff]
    refine ⟨_, _, rfl, char_rmatch_iff ':' [':'] |>.mpr rfl, ?_⟩
    rw [mul_rmatch_iff]
    refine ⟨_, _, rfl, altStrings_rmatch.mpr ⟨o, ho, rfl⟩, ?_⟩
    rw [mul_rmatch_iff]
    exact ⟨ti, tf, rfl, tail_rmatch.mpr (tailTok_id_iff.mpr hti), tail_rmatch.mpr htf⟩

theorem tailTok_string {t : List Char} (h : TailTok wordChars t) :
    String.mk t = "" ∨ ∃ w, isWordTok w ∧ String.mk t = ":" ++ w := by
  rcases h with rfl | ⟨w, hne, hw, rfl⟩
  · exact Or.inl rfl
  · refine Or.inr ⟨String.mk w, ⟨?_, hw⟩, ?_⟩
    · intro hc
      rw [String.ext_iff] at hc
      exact hne hc
    · apply String.ext
      simp [String.data_append]

theorem string_tailTok {t : String} (h : t = "" ∨ ∃ w, isWordTok w ∧ t = ":" ++ w) :
    TailTok wordChars t.data := by
  rcases h with rfl | ⟨w, ⟨hne, hw⟩, rfl⟩
  · exact Or.inl rfl
  · refine Or.inr ⟨w.data, ?_, hw, by simp [String.data_append]⟩
    intro hc
    exact hne (String.ext hc)

theorem cs_data : ("cs:" : String).data = ['c', 's', ':'] := rfl

theorem colon_data : (":" : String).data = [':'] := rfl

/-- Claim C1: for every string `k`, `is_valid_key k` returns true iff `k`
matches exactly the grammar: literal `cs:`, one allow-listed producer, `:`,
one allow-listed object, then optionally `:` and an alphanumeric/underscore
instance-id token, then optionally `:` and a word-token function suffix,
then end of string — no partial match, no trailing characters. -/
theorem C1_key_grammar (k : String) : is_valid_key k = true ↔ spec_valid_key k := by
  constructor
  · intro h
    obtain ⟨p, hp, o, ho, ti, tf, hx, hti, htf⟩ := key_pattern_rmatch.mp h
    refine ⟨p, hp, o, ho, String.mk ti, String.mk tf, ?_,
      tailTok_string hti, tailTok_string htf⟩
    apply String.ext
    rw [hx]
    simp [String.data_append, cs_data, colon_data, List.append_assoc]
  · rintro ⟨p, hp, o, ho, ti, tf, rfl, hti, htf⟩
    apply key_pattern_rmatch.mpr
    refine ⟨p, hp, o, ho, ti.data, tf.data, ?_, string_tailTok hti, string_tailTok htf⟩
    simp [String.data_append, cs_data, colon_data, List.append_assoc]

/-- A request whose key is valid and whose value (when present) passes
schema validation reaches the dispatch table. -/
theorem handle_request_valid (backend : Backend) (req : Request)
    (hkey : is_valid_key req.key = true)
    (hval : ∀ v, req.value = some v → validate_json_schema req.key v = Except.ok ()) :
    handle_request backend (some req) = dispatch backend req := by
  cases hv : req.value with
  | none => simp only [handle_request, hkey, hv, if_true]
  | some v => simp only [handle_request, hkey, hv, hval v hv, if_true]

/-- Claim C2: a decoded request whose key fails grammar matching, or whose
value fails schema validation against a registered schema, produces an
error response and no backend call of any kind. -/
theorem C2_invalid_never_reaches_backend (backend : Backend) (req : Request)
    (h : is_valid_key req.key = false ∨
      ∃ v e, req.value = some v ∧ validate_json_schema req.key v = Except.error e) :
    (handle_request backend (some req)).1.status = "error" ∧
    (handle_request backend (some req)).2 = [] := by
  rcases h with hk | ⟨v, e, hv, hval⟩
  · simp [handle_request, hk]
  · cases hk : is_valid_key req.key with
    | false => simp [handle_request, hk]
    | true => simp [handle_request, hk, hv, hval]

/-- Witness for C2: the specification's Scenario 2 request. -/
theorem C2_witness :
    (handle_request (fun _ => Except.ok ())
        (some ⟨"set", "cs:UnknownProducer:object1", none⟩)).1.status = "error" ∧
    (handle_request (fun _ => Except.ok ())
        (some ⟨"set", "cs:UnknownProducer:object1", none⟩)).2 = [] :=
  C2_invalid_never_reaches_backend (fun _ => Except.ok ())
    ⟨"set", "cs:UnknownProducer:object1", none⟩ (Or.inl (by decide))

/-- Claim C5: when no schema is registered for the key's base key,
validation succeeds regardless of the shape of the value. -/
theorem C5_no_schema_vacuous (key : String) (value : Json)
    (h : SCHEMAS.lookup (base_key key) = none) :
    validate_json_schema key value = Except.ok () := by
  unfold validate_json_schema validate_json_schema_with
  rw [h]

/-- Witness for C5: a valid key whose base key has no schema, with a value
of arbitrary shape. -/
theorem C5_witness :
    validate_json_schema "cs:Psmon:object2:id7" (Json.arr [Json.num 3]) = Except.ok () :=
  C5_no_schema_vacuous "cs:Psmon:object2:id7" (Json.arr [Json.num 3]) (by rfl)

/-- Claim C7: a message that fails to decode as a Request produces the
"Invalid request format" error response with no backend call, and the
connection goes on to process the remaining messages unchanged. -/
theorem C7_decode_failure_continues (backend : Backend) (msgs1 msgs2 : List (Option Request)) :
    handle_client backend (msgs1 ++ none :: msgs2) =
      handle_client backend msgs1 ++
        (⟨⟨"error", "Invalid request format"⟩, []⟩ : Response × List BackendOp) ::
          handle_client backend msgs2 := by
  unfold handle_client
  rw [List.map_append, List.map_cons]
  rfl

/-- Counterexample for C9 as stated: a well-formed request with unknown
action but an invalid key is answered "Invalid key format", not
"Invalid action" (the key check runs first). -/
theorem C9_counterexample :
    (handle_request (fun _ => Except.ok ()) (some ⟨"frobnicate", "cs:bad", none⟩)).1 ≠
      (⟨"error", "Invalid action"⟩ : Response) ∧
    (handle_request (fun _ => Except.ok ()) (some ⟨"frobnicate", "cs:bad", none⟩)).1 =
      (⟨"error", "Invalid key format"⟩ : Response) := by decide

/-- Claim C9 (amended): a well-formed request that passes the key check and
schema validation but whose action is none of set/del/sadd/srem is answered
"Invalid action" with no backend call. -/
theorem C9_invalid_action (backend : Backend) (req : Request)
    (hkey : is_valid_key req.key = true)
    (hval : ∀ v, req.value = some v → validate_json_schema req.key v = Except.ok ())
    (hact : req.action ∉ (["set", "del", "sadd", "srem"] : List String)) :
    handle_request backend (some req) = (⟨"error", "Invalid action"⟩, []) := by
  rw [handle_request_valid backend req hkey hval]
  simp only [List.mem_cons, List.not_mem_nil, or_false, not_or] at hact
  unfold dispatch
  split <;> simp_all

/-- Witness for C9: Scenario 4 of the specification, with a valid key. -/
theorem C9_witness :
    handle_request (fun _ => Except.ok ())
        (some ⟨"frobnicate", "cs:DiskUsage:object1", none⟩) =
      (⟨"error", "Invalid action"⟩, []) :=
  C9_invalid_action (fun _ => Except.ok ()) ⟨"frobnicate", "cs:DiskUsage:object1", none⟩
    (by decide) (by intro v hv; cases hv) (by decide)

/-- Counterexample for C8 as stated: a del request carrying a value that
violates the schema of its base key is rejected by schema validation and
never dispatched to backend DELETE. -/
theorem C8_counterexample :
    handle_request (fun _ => Except.ok ())
        (some ⟨"del", "cs:DiskUsage:object1", some (Json.str "x")⟩) =
      (⟨"error", "\"x\" is not of type \"object\""⟩, []) ∧
    BackendOp.del "cs:DiskUsage:object1" ∉
      (handle_request (fun _ => Except.ok ())
        (some ⟨"del", "cs:DiskUsage:object1", some (Json.str "x")⟩)).2 := by decide

/-- Claim C8 (amended): for a del request with a valid key whose value is
absent or passes schema validation, the value does not affect the outcome
(the request behaves exactly like the same request without a value) and
backend DELETE is the first call attempted. -/
theorem C8_del_value_unused (backend : Backend) (req : Request)
    (hact : req.action = "del") (hkey : is_valid_key req.key = true)
    (hval : ∀ v, req.value = some v → validate_json_schema req.key v = Except.ok ()) :
    handle_request backend (some req) =
      handle_request backend (some ⟨req.action, req.key, none⟩) ∧
    ((handle_request backend (some req)).2).head? = some (BackendOp.del req.key) := by
  have h2 : handle_request backend (some ⟨req.action, req.key, none⟩) =
      dispatch backend ⟨req.action, req.key, none⟩ :=
    handle_request_valid backend ⟨req.action, req.key, none⟩ hkey
      (by intro v hv; cases hv)
  rw [handle_request_valid backend req hkey hval, h2]
  constructor
  · simp only [dispatch, hact]
  · simp only [dispatch, hact]
    unfold runOps
    cases backend (BackendOp.del req.key) with
    | error e => rfl
    | ok a => cases backend (BackendOp.publish req.key "del") <;> rfl

/-- Witness for C8 (amended): a del request carrying a schema-conforming
value behaves as if the value were absent, and DELETE is attempted. -/
theorem C8_witness :
    handle_request (fun _ => Except.ok ())
        (some ⟨"del", "cs:Psmon:object1", some (Json.num 3)⟩) =
      handle_request (fun _ => Except.ok ()) (some ⟨"del", "cs:Psmon:object1", none⟩) ∧
    ((handle_request (fun _ => Except.ok ())
        (some ⟨"del", "cs:Psmon:object1", some (Json.num 3)⟩)).2).head? =
      some (BackendOp.del "cs:Psmon:object1") :=
  C8_del_value_unused (fun _ => Except.ok ()) ⟨"del", "cs:Psmon:object1", some (Json.num 3)⟩
    rfl (by decide) (by intro v hv; cases hv; rfl)

/-- Helper: head and full trace of `runOps` under the mutation outcome. -/
theorem runOps_trace (backend : Backend) (op1 op2 : BackendOp) :
    ((runOps backend op1 op2).2).head? = some op1 ∧
    (backend op1 = Except.ok () → (runOps backend op1 op2).2 = [op1, op2]) := by
  unfold runOps
  cases h1 : backend op1 with
  | error e => exact ⟨rfl, fun hc => by cases hc⟩
  | ok a =>
    cases backend op2 with
    | error e => exact ⟨rfl, fun _ => rfl⟩
    | ok b => exact ⟨rfl, fun _ => rfl⟩

/-- Claim C10: a set/sadd/srem request with a valid key and no value skips
schema validation entirely (no schema compilation happens, even when the
base key has a registered schema) and performs the mutation and the
publish with the literal serialized text "null". -/
theorem C10_absent_value_null (backend : Backend) (req : Request)
    (hact : req.action ∈ (["set", "sadd", "srem"] : List String))
    (hkey : is_valid_key req.key = true)
    (hnone : req.value = none) :
    request_compiles (some req) = 0 ∧
    valueText req = "null" ∧
    publishOf req = some (BackendOp.publish req.key (req.action ++ ": null")) ∧
    ∃ m, mutationOf req = some m ∧
      ((handle_request backend (some req)).2).head? = some m ∧
      (backend m = Except.ok () →
        (handle_request backend (some req)).2 =
          [m, BackendOp.publish req.key (req.action ++ ": null")]) := by
  have hvt : valueText req = "null" := by
    simp [valueText, hnone, Json.render]
  have hcmp : request_compiles (some req) = 0 := by
    simp [request_compiles, hkey, hnone]
  have hhr : handle_request backend (some req) = dispatch backend req :=
    handle_request_valid backend req hkey (by intro v hv; rw [hnone] at hv; cases hv)
  simp only [List.mem_cons, List.not_mem_nil, or_false] at hact
  rcases hact with h | h | h
  · refine ⟨hcmp, hvt, ?_, BackendOp.set req.key "null", ?_, ?_, ?_⟩
    · simp [publishOf, h, hvt]
    · simp [mutationOf, h, hvt]
    · rw [hhr]
      simp only [dispatch, h, hvt]
      exact (runOps_trace backend _ _).1
    · intro hok
      rw [hhr]
      simp only [dispatch, h, hvt]
      have := (runOps_trace backend (BackendOp.set req.key "null")
        (BackendOp.publish req.key ("set: " ++ "null"))).2 hok
      rw [this]
      simp [h]
  · refine ⟨hcmp, hvt, ?_, BackendOp.sadd req.key "null", ?_, ?_, ?_⟩
    · simp [publishOf, h, hvt]
    · simp [mutationOf, h, hvt]
    · rw [hhr]
      simp only [dispatch, h, hvt]
      exact (runOps_trace backend _ _).1
    · intro hok
      rw [hhr]
      simp only [dispatch, h, hvt]
      have := (runOps_trace backend (BackendOp.sadd req.key "null")
        (BackendOp.publish req.key ("sadd: " ++ "null"))).2 hok
      rw [this]
      simp [h]
  · refine ⟨hcmp, hvt, ?_, BackendOp.srem req.key "null", ?_, ?_, ?_⟩
    · simp [publishOf, h, hvt]
    · simp [mutationOf, h, hvt]
    · rw [hhr]
      simp only [dispatch, h, hvt]
      exact (runOps_trace backend _ _).1
    · intro hok
      rw [hhr]
      simp only [dispatch, h, hvt]
      have := (runOps_trace backend (BackendOp.srem req.key "null")
        (BackendOp.publish req.key ("srem: " ++ "null"))).2 hok
      rw [this]
      simp [h]

/-- Witness for C10: a valueless set on a key whose base key has a
registered schema. -/
theorem C10_witness :
    request_compiles (some ⟨"set", "cs:DiskUsage:object1", none⟩) = 0 ∧
    valueText ⟨"set", "cs:DiskUsage:object1", none⟩ = "null" ∧
    publishOf ⟨"set", "cs:DiskUsage:object1", none⟩ =
      some (BackendOp.publish "cs:DiskUsage:object1" ("set" ++ ": null")) ∧
    ∃ m, mutationOf ⟨"set", "cs:DiskUsage:object1", none⟩ = some m ∧
      ((handle_request okBackend (some ⟨"set", "cs:DiskUsage:object1", none⟩)).2).head? =
        some m ∧
      (okBackend m = Except.ok () →
        (handle_request okBackend (some ⟨"set", "cs:DiskUsage:object1", none⟩)).2 =
          [m, BackendOp.publish "cs:DiskUsage:object1" ("set" ++ ": null")]) :=
  C10_absent_value_null okBackend ⟨"set", "cs:DiskUsage:object1", none⟩
    (by decide) (by decide) rfl

/-- The dispatch table of a recognized action is exactly mutation-then-
publish sequencing of its mutation and publish calls, and the mutation
call is never itself a publish. -/
theorem dispatch_cases (backend : Backend) (req : Request) (m p : BackendOp)
    (hm : mutationOf req = some m) (hp : publishOf req = some p) :
    dispatch backend req = runOps backend m p ∧ ∀ k s, m ≠ BackendOp.publish k s := by
  unfold mutationOf at hm
  unfold publishOf at hp
  split at hm
  · rename_i heq
    cases hm
    simp only [heq, Option.some.injEq] at hp
    subst hp
    exact ⟨by simp only [dispatch, heq], fun k s h => by cases h⟩
  · rename_i heq
    cases hm
    simp only [heq, Option.some.injEq] at hp
    subst hp
    exact ⟨by simp only [dispatch, heq], fun k s h => by cases h⟩
  · rename_i heq
    cases hm
    simp only [heq, Option.some.injEq] at hp
    subst hp
    exact ⟨by simp only [dispatch, heq], fun k s h => by cases h⟩
  · rename_i heq
    cases hm
    simp only [heq, Option.some.injEq] at hp
    subst hp
    exact ⟨by simp only [dispatch, heq], fun k s h => by cases h⟩
  · cases hm

/-- The publish call of a recognized action is always a publish. -/
theorem publishOf_shape (req : Request) (p : BackendOp) (hp : publishOf req = some p) :
    ∃ k s, p = BackendOp.publish k s := by
  unfold publishOf at hp
  split at hp
  · cases hp; exact ⟨_, _, rfl⟩
  · cases hp; exact ⟨_, _, rfl⟩
  · cases hp; exact ⟨_, _, rfl⟩
  · cases hp; exact ⟨_, _, rfl⟩
  · cases hp

/-- Full behaviour of the mutation-then-publish sequencing. -/
theorem runOps_spec (backend : Backend) (op1 op2 : BackendOp) (hne : op1 ≠ op2) :
    ((runOps backend op1 op2).2).head? = some op1 ∧
    (op2 ∈ (runOps backend op1 op2).2 ↔ backend op1 = Except.ok ()) ∧
    (∀ e, backend op1 = Except.error e → runOps backend op1 op2 = (⟨"error", e⟩, [op1])) ∧
    (∀ e, backend op1 = Except.ok () → backend op2 = Except.error e →
      runOps backend op1 op2 = (⟨"error", e⟩, [op1, op2])) ∧
    (backend op1 = Except.ok () → backend op2 = Except.ok () →
      runOps backend op1 op2 = (⟨"ok", "Action completed successfully"⟩, [op1, op2])) := by
  unfold runOps
  cases h1 : backend op1 with
  | error e =>
    refine ⟨rfl, ?_, ?_, ?_, ?_⟩
    · simp [Ne.symm hne]
    · intro e2 he2
      cases he2
      rfl
    · intro e2 hok
      cases hok
    · intro hok
      cases hok
  | ok a =>
    cases a
    cases h2 : backend op2 with
    | error e =>
      refine ⟨rfl, ?_, ?_, ?_, ?_⟩
      · simp
      · intro e2 hce
        cases hce
      · intro e2 hok2 he2
        cases he2
        rfl
      · intro hok2 hce
        cases hce
    | ok b =>
      cases b
      refine ⟨rfl, ?_, ?_, ?_, ?_⟩
      · simp
      · intro e2 hce
        cases hce
      · intro e2 hok2 hce
        cases hce
      · intro hok2 hok3
        rfl

/-- Claim C4: for a validated set/del/sadd/srem request the mutation (with
the value serialized to its canonical JSON text) is attempted first; the
publish on the key's channel is attempted iff the mutation succeeded; a
mutation failure yields an error response carrying the backend's text with
no publish attempted; a publish failure yields an error response carrying
the backend's text even though the mutation was already attempted and
succeeded; and when both succeed the response is ok. -/
theorem C4_mutation_then_publish (backend : Backend) (req : Request) (m p : BackendOp)
    (hm : mutationOf req = some m) (hp : publishOf req = some p)
    (hkey : is_valid_key req.key = true)
    (hval : ∀ v, req.value = some v → validate_json_schema req.key v = Except.ok ()) :
    ((handle_request backend (some req)).2).head? = some m ∧
    (p ∈ (handle_request backend (some req)).2 ↔ backend m = Except.ok ()) ∧
    (∀ e, backend m = Except.error e →
      handle_request backend (some req) = (⟨"error", e⟩, [m])) ∧
    (∀ e, backend m = Except.ok () → backend p = Except.error e →
      handle_request backend (some req) = (⟨"error", e⟩, [m, p])) ∧
    (backend m = Except.ok () → backend p = Except.ok () →
      handle_request backend (some req) =
        (⟨"ok", "Action completed successfully"⟩, [m, p])) := by
  rw [handle_request_valid backend req hkey hval]
  obtain ⟨hd, hnp⟩ := dispatch_cases backend req m p hm hp
  rw [hd]
  have hne : m ≠ p := by
    obtain ⟨k, s, rfl⟩ := publishOf_shape req p hp
    exact hnp k s
  exact runOps_spec backend m p hne

/-- Witness for C4: a valueless srem request against the always-succeeding
backend. -/
theorem C4_witness :
    ((handle_request okBackend (some ⟨"srem", "cs:SerialPort:object2", none⟩)).2).head? =
      some (BackendOp.srem "cs:SerialPort:object2" "null") ∧
    (BackendOp.publish "cs:SerialPort:object2" ("srem: " ++ "null") ∈
        (handle_request okBackend (some ⟨"srem", "cs:SerialPort:object2", none⟩)).2 ↔
      okBackend (BackendOp.srem "cs:SerialPort:object2" "null") = Except.ok ()) ∧
    (∀ e, okBackend (BackendOp.srem "cs:SerialPort:object2" "null") = Except.error e →
      handle_request okBackend (some ⟨"srem", "cs:SerialPort:object2", none⟩) =
        (⟨"error", e⟩, [BackendOp.srem "cs:SerialPort:object2" "null"])) ∧
    (∀ e, okBackend (BackendOp.srem "cs:SerialPort:object2" "null") = Except.ok () →
      okBackend (BackendOp.publish "cs:SerialPort:object2" ("srem: " ++ "null")) =
        Except.error e →
      handle_request okBackend (some ⟨"srem", "cs:SerialPort:object2", none⟩) =
        (⟨"error", e⟩, [BackendOp.srem "cs:SerialPort:object2" "null",
          BackendOp.publish "cs:SerialPort:object2" ("srem: " ++ "null")])) ∧
    (okBackend (BackendOp.srem "cs:SerialPort:object2" "null") = Except.ok () →
      okBackend (BackendOp.publish "cs:SerialPort:object2" ("srem: " ++ "null")) =
        Except.ok () →
      handle_request okBackend (some ⟨"srem", "cs:SerialPort:object2", none⟩) =
        (⟨"ok", "Action completed successfully"⟩,
          [BackendOp.srem "cs:SerialPort:object2" "null",
            BackendOp.publish "cs:SerialPort:object2" ("srem: " ++ "null")])) :=
  C4_mutation_then_publish okBackend ⟨"srem", "cs:SerialPort:object2", none⟩
    (BackendOp.srem "cs:SerialPort:object2" "null")
    (BackendOp.publish "cs:SerialPort:object2" ("srem: " ++ "null"))
    rfl rfl (by decide) (by intro v hv; cases hv)

/-- Counterexample for C3 as stated: serving the same validated request
twice compiles its schema twice — the compiled form is not reused across
validation calls, because the compile runs inside every call. -/
theorem C3_counterexample :
    client_compiles [some sampleSetReq, some sampleSetReq] = 2 ∧
    ¬ client_compiles [some sampleSetReq, some sampleSetReq] ≤ 1 := by decide

/-- A compilation error of a registered schema would be returned as that
request's validation error (reaching the client), not treated as fatal. -/
theorem validate_compile_error_propagates (table : List (String × Json))
    (key : String) (value : Json) (s : Json) (e : String)
    (hl : table.lookup (base_key key) = some s)
    (hc : compileSchema s = Except.error e) :
    validate_json_schema_with table key value = Except.error e := by
  simp only [validate_json_schema_with, hl, hc]

/-- Claim C3 (amended): the schema of a base key is compiled anew on every
validation call — exactly once per request that reaches validation with a
registered schema — and both registered schemas always compile
successfully. -/
theorem C3_compile_per_call (req : Request) (v : Json)
    (hv : req.value = some v) (hkey : is_valid_key req.key = true)
    (hs : (SCHEMAS.lookup (base_key req.key)).isSome = true) :
    request_compiles (some req) = 1 ∧
    (compileSchema diskUsageSchema).toOption.isSome = true ∧
    (compileSchema modemWatcherSchema).toOption.isSome = true := by
  refine ⟨?_, by decide, by decide⟩
  simp [request_compiles, hkey, hv, hs]

/-- Witness for C3 (amended). -/
theorem C3_witness :
    request_compiles (some sampleSetReq) = 1 ∧
    (compileSchema diskUsageSchema).toOption.isSome = true ∧
    (compileSchema modemWatcherSchema).toOption.isSome = true :=
  C3_compile_per_call sampleSetReq
    (.obj [("version", .num 1), ("disk", .str "sda"), ("usage", .num 42)])
    rfl (by decide) (by decide)

theorem leadsWith_append (a b : List Char) : leadsWith a (a ++ b) = true := by
  induction a with
  | nil => rfl
  | cons c cs ih => simp [leadsWith, ih]

theorem containsSub_here (need post : List Char) :
    containsSub need (need ++ post) = true := by
  cases hnp : need ++ post with
  | nil =>
    obtain ⟨h1, h2⟩ := List.append_eq_nil.mp hnp
    subst h1
    rfl
  | cons c cs =>
    show (leadsWith need (c :: cs) || containsSub need cs) = true
    rw [← hnp, leadsWith_append]
    rfl

theorem containsSub_append (need pre post : List Char) :
    containsSub need (pre ++ (need ++ post)) = true := by
  induction pre with
  | nil => exact containsSub_here need post
  | cons c cs ih =>
    show (leadsWith need (c :: (cs ++ (need ++ post))) ||
      containsSub need (cs ++ (need ++ post))) = true
    rw [ih]
    simp

theorem mentions_of_decomp {msg f : String} (h : ∃ a b, msg = a ++ f ++ b) :
    mentions msg f = true := by
  obtain ⟨a, b, rfl⟩ := h
  show containsSub f.data (a ++ f ++ b).data = true
  have hd : (a ++ f ++ b).data = a.data ++ (f.data ++ b.data) := by
    simp [String.data_append, List.append_assoc]
  rw [hd]
  exact containsSub_append f.data a.data b.data

theorem empty_data : ("" : String).data = [] := rfl

theorem joinSep_mem_decomp (sep : String) (l : List String) (e : String) (he : e ∈ l) :
    ∃ a b, joinSep sep l = a ++ e ++ b := by
  induction l with
  | nil => cases he
  | cons x xs ih =>
    cases xs with
    | nil =>
      rw [List.mem_singleton] at he
      subst he
      refine ⟨"", "", ?_⟩
      apply String.ext
      simp [joinSep, String.data_append, empty_data]
    | cons y ys =>
      rcases List.mem_cons.mp he with rfl | he2
      · refine ⟨"", sep ++ joinSep sep (y :: ys), ?_⟩
        apply String.ext
        simp [joinSep, String.data_append, empty_data, List.append_assoc]
      · obtain ⟨a, b, hab⟩ := ih he2
        refine ⟨x ++ sep ++ a, b, ?_⟩
        apply String.ext
        simp [joinSep, hab, String.data_append, List.append_assoc]

theorem lookup_some_mem {α : Type} {l : List (String × α)} {f : String} {v : α}
    (h : l.lookup f = some v) : (f, v) ∈ l := by
  induction l with
  | nil => cases h
  | cons kv rest ih =>
    obtain ⟨k, w⟩ := kv
    rw [List.lookup_cons] at h
    cases hbe : f == k with
    | true =>
      rw [hbe] at h
      cases h
      have : f = k := eq_of_beq hbe
      subst this
      exact List.mem_cons_self _ _
    | false =>
      rw [hbe] at h
      exact List.mem_cons_of_mem _ (ih h)

theorem mem_lookup_of_nodup {α : Type} {l : List (String × α)} {f : String} {v : α}
    (hnd : (l.map Prod.fst).Nodup) (hm : (f, v) ∈ l) : l.lookup f = some v := by
  induction l with
  | nil => cases hm
  | cons kv rest ih =>
    obtain ⟨k, w⟩ := kv
    rw [List.lookup_cons]
    rw [List.map_cons] at hnd
    rcases List.mem_cons.mp hm with heq | hm2
    · cases heq
      simp
    · have hk : f ≠ k := by
        rintro rfl
        exact (List.nodup_cons.mp hnd).1 (List.mem_map.mpr ⟨(f, v), hm2, rfl⟩)
      have hbe : (f == k) = false := beq_eq_false_iff_ne.mpr hk
      rw [hbe]
      exact ih (List.nodup_cons.mp hnd).2 hm2

theorem requiredErrors_mem {cs : CompiledSchema} {fields : List (String × Json)} {f : String}
    (hf : f ∈ cs.required) (hmiss : fields.lookup f = none) :
    requiredMsg f ∈ requiredErrors cs fields := by
  unfold requiredErrors
  exact List.mem_map_of_mem _ (List.mem_filter.mpr ⟨hf, by simp [hmiss]⟩)

/-- For an object instance, validation produces no error message iff no
required field is violated (given that every declared property is required
and property names are unique, as in both registered schemas). -/
theorem validateValue_obj_nil_iff {cs : CompiledSchema} {fields : List (String × Json)}
    (hsub : ∀ q ∈ cs.properties, q.1 ∈ cs.required)
    (hnd : (cs.properties.map Prod.fst).Nodup) :
    validateValue cs (Json.obj fields) = [] ↔
      ∀ f, violAgainst cs (Json.obj fields) f = false := by
  show (requiredErrors cs fields ++ typeErrors cs fields = []) ↔ _
  rw [List.append_eq_nil]
  unfold requiredErrors typeErrors
  rw [List.map_eq_nil_iff, List.filter_eq_nil_iff, List.filterMap_eq_nil_iff]
  constructor
  · rintro ⟨hreq, htype⟩ f
    unfold violAgainst
    by_cases hf : f ∈ cs.required
    · cases hlf : fields.lookup f with
      | none => exact absurd (by simp [hlf]) (hreq f hf)
      | some w =>
        cases hpf : cs.properties.lookup f with
        | none => simp [hlf, hpf]
        | some ty =>
          have hmem := lookup_some_mem hpf
          have htyn := htype (f, ty) hmem
          simp only [hlf] at htyn
          have htm : typeMatches ty w = true := by
            by_contra hcon
            rw [Bool.not_eq_true] at hcon
            simp [hcon] at htyn
          simp [hlf, hpf, htm]
    · simp [hf]
  · intro hviol
    refine ⟨?_, ?_⟩
    · intro f hf hcon
      have hv := hviol f
      unfold violAgainst at hv
      rw [Option.isNone_iff_eq_none] at hcon
      simp [hf, hcon] at hv
    · rintro ⟨f, ty⟩ hmem
      cases hlf : fields.lookup f with
      | none => simp [hlf]
      | some w =>
        have hv := hviol f
        unfold violAgainst at hv
        have hf : f ∈ cs.required := hsub (f, ty) hmem
        have hpl : cs.properties.lookup f = some ty := mem_lookup_of_nodup hnd hmem
        simp [hf, hlf, hpl] at hv
        simp [hlf, hv]

/-- The non-empty-violation characterization for a single non-object
instance shape, given the single type-error it produces. -/
theorem validateValue_ne_nil_nonobj {cs : CompiledSchema} {v : Json}
    (hne : cs.required ≠ [])
    (hval : validateValue cs v = [typeMsg v "object"])
    (hviol : ∀ f0 r, cs.required = f0 :: r → violAgainst cs v f0 = true) :
    validateValue cs v ≠ [] ↔ ∃ f, violAgainst cs v f = true := by
  rw [hval]
  cases hr : cs.required with
  | nil => exact absurd hr hne
  | cons f0 r => exact iff_of_true (by simp) ⟨f0, hviol f0 r hr⟩

/-- Validation of any instance produces some error message iff some
required field is violated. -/
theorem validateValue_ne_nil_iff {cs : CompiledSchema} {v : Json}
    (hne : cs.required ≠ [])
    (hsub : ∀ q ∈ cs.properties, q.1 ∈ cs.required)
    (hnd : (cs.properties.map Prod.fst).Nodup) :
    validateValue cs v ≠ [] ↔ ∃ f, violAgainst cs v f = true := by
  cases v with
  | obj fields =>
    rw [Ne, validateValue_obj_nil_iff hsub hnd]
    constructor
    · intro hcon
      by_contra hnof
      push_neg at hnof
      exact hcon fun f => by
        cases hb : violAgainst cs (Json.obj fields) f with
        | false => rfl
        | true => exact absurd hb (hnof f)
    · rintro ⟨f, hf⟩ hall
      rw [hall f] at hf
      cases hf
  | null =>
    exact validateValue_ne_nil_nonobj hne rfl (fun f0 r hr => by simp [violAgainst, hr])
  | bool b =>
    exact validateValue_ne_nil_nonobj hne rfl (fun f0 r hr => by simp [violAgainst, hr])
  | num n =>
    exact validateValue_ne_nil_nonobj hne rfl (fun f0 r hr => by simp [violAgainst, hr])
  | str s =>
    exact validateValue_ne_nil_nonobj hne rfl (fun f0 r hr => by simp [violAgainst, hr])
  | arr xs =>
    exact validateValue_ne_nil_nonobj hne rfl (fun f0 r hr => by simp [violAgainst, hr])

/-- A registered schema is one of the two table entries. -/
theorem SCHEMAS_lookup_cases {b : String} {schema : Json}
    (hl : SCHEMAS.lookup b = some schema) :
    schema = diskUsageSchema ∨ schema = modemWatcherSchema := by
  have hm := lookup_some_mem hl
  simp only [SCHEMAS, List.mem_cons, List.not_mem_nil, or_false, Prod.mk.injEq] at hm
  rcases hm with ⟨-, rfl⟩ | ⟨-, rfl⟩
  · exact Or.inl rfl
  · exact Or.inr rfl

/-- Claim C6 (amended): for every (key, value) with a schema registered for
the key's base key, validation fails iff some required field of the schema
is violated by the value (missing — including the case of a non-object
value — or present with the wrong primitive type); and for object values
the single aggregated error message names every missing required field.
(A wrong-typed field is reported through the offending value's text, and a
non-object value through a single top-level type error, neither of which
names the field.) -/
theorem C6_schema_validation (key : String) (value : Json) (schema : Json)
    (cs : CompiledSchema)
    (hl : SCHEMAS.lookup (base_key key) = some schema)
    (hc : compileSchema schema = Except.ok cs) :
    ((∃ e, validate_json_schema key value = Except.error e) ↔
      ∃ f, violAgainst cs value f = true) ∧
    (∀ fields, value = Json.obj fields →
      ∀ e, validate_json_schema key value = Except.error e →
      ∀ f ∈ cs.required, fields.lookup f = none → mentions e f = true) := by
  have hstruct : cs.required ≠ [] ∧ (∀ q ∈ cs.properties, q.1 ∈ cs.required) ∧
      (cs.properties.map Prod.fst).Nodup := by
    rcases SCHEMAS_lookup_cases hl with rfl | rfl
    · rw [show compileSchema diskUsageSchema = Except.ok diskUsageCompiled from rfl] at hc
      cases hc
      exact ⟨by decide, by decide, by decide⟩
    · rw [show compileSchema modemWatcherSchema = Except.ok modemWatcherCompiled from rfl] at hc
      cases hc
      exact ⟨by decide, by decide, by decide⟩
  obtain ⟨hne, hsub, hnd⟩ := hstruct
  have hfail : (∃ e, validate_json_schema key value = Except.error e) ↔
      validateValue cs value ≠ [] := by
    constructor
    · rintro ⟨e, he⟩ hcon
      simp only [validate_json_schema, validate_json_schema_with, hl, hc, hcon] at he
      cases he
    · intro hcon
      cases herrs : validateValue cs value with
      | nil => exact absurd herrs hcon
      | cons e0 rest =>
        exact ⟨joinSep ", " (e0 :: rest),
          by simp only [validate_json_schema, validate_json_schema_with, hl, hc, herrs]⟩
  refine ⟨hfail.trans (validateValue_ne_nil_iff hne hsub hnd), ?_⟩
  rintro fields rfl e he f hf hmiss
  have hmem : requiredMsg f ∈ validateValue cs (Json.obj fields) :=
    List.mem_append_left _ (requiredErrors_mem hf hmiss)
  cases herrs : validateValue cs (Json.obj fields) with
  | nil => rw [herrs] at hmem; cases hmem
  | cons e0 rest =>
    rw [herrs] at hmem
    have he2 : e = joinSep ", " (e0 :: rest) := by
      simp only [validate_json_schema, validate_json_schema_with, hl, hc, herrs] at he
      cases he
      rfl
    subst he2
    obtain ⟨a, b, hab⟩ := joinSep_mem_decomp ", " (e0 :: rest) (requiredMsg f) hmem
    apply mentions_of_decomp
    refine ⟨a ++ "\"", "\" is a required property" ++ b, ?_⟩
    rw [hab]
    apply String.ext
    simp [requiredMsg, String.data_append, List.append_assoc]

/-- Counterexample for C6 as stated: validating a non-object value fails
with the single message `5 is not of type "object"`; the (vacuously
missing) required field `version` is violated, yet the message does not
mention it. -/
theorem C6_counterexample :
    compileSchema modemWatcherSchema = Except.ok modemWatcherCompiled ∧
    validate_json_schema "cs:ModemWatcher:object2" (Json.num 5) =
      Except.error "5 is not of type \"object\"" ∧
    violAgainst modemWatcherCompiled (Json.num 5) "version" = true ∧
    mentions "5 is not of type \"object\"" "version" = false :=
  ⟨rfl, rfl, rfl, rfl⟩

/-- Witness for C6 (amended): Scenario 3 of the specification — a value
missing `signal_strength` fails, a violation exists, and the message
mentions the missing field. -/
theorem C6_witness :
    ((∃ e, validate_json_schema "cs:ModemWatcher:object2"
        (Json.obj [("version", .num 1), ("status", .str "up")]) = Except.error e) ↔
      ∃ f, violAgainst modemWatcherCompiled
        (Json.obj [("version", .num 1), ("status", .str "up")]) f = true) ∧
    (∀ fields, Json.obj [("version", .num 1), ("status", .str "up")] = Json.obj fields →
      ∀ e, validate_json_schema "cs:ModemWatcher:object2"
        (Json.obj [("version", .num 1), ("status", .str "up")]) = Except.error e →
      ∀ f ∈ modemWatcherCompiled.required, fields.lookup f = none →
        mentions e f = true) :=
  C6_schema_validation "cs:ModemWatcher:object2"
    (Json.obj [("version", .num 1), ("status", .str "up")])
    modemWatcherSchema modemWatcherCompiled rfl rfl
